import Mathlib

/-!
Shallow embedding of the tick-cache / candle-aggregation pipeline and the
order-execution reconciliation engine of the stock_predict_api service,
with proofs of the specification claims about them.

Conventions of the embedding:
* Python `float` fields are modelled as `ℚ`, Python `int` fields as `ℤ`
  (sequence counters as `ℕ`).
* A string field that is parsed with `float(...)` / `int(...)` inside a
  `try` block is modelled by the `Option` of its parse result (`none` =
  the parse raises `ValueError`/`TypeError`).
* `trade_time` strings are kept as strings and parsed by an executable
  model of Python `int(...)` restricted to digit strings.
* A Python function that can raise an exception observed by its caller
  is modelled as `Except Unit _`.
-/

deriving instance DecidableEq for Except

namespace StockPredictApi

/-! ### Digit-string parsing (model of Python `int(...)` on digit strings) -/

/-- Digit value of a character, `none` for a non-digit. -/
def charDigit (c : Char) : Option ℕ :=
  if 48 ≤ c.toNat ∧ c.toNat ≤ 57 then some (c.toNat - 48) else none

/-- Accumulating decimal parse of a digit list. -/
def digitsVal : List Char → ℕ → Option ℕ
  | [], acc => some acc
  | c :: cs, acc =>
    match charDigit c with
    | some d => digitsVal cs (acc * 10 + d)
    | none => none

/-- Model of Python `int(s)` on the `HHMMSS`-style digit strings this service
parses: a non-empty all-digit string yields its value, anything else is a
parse failure. -/
def parseDigits (cs : List Char) : Option ℕ :=
  if cs = [] then none else digitsVal cs 0

/-! ### Price messages (app/schemas/price.py)

Only the fields the aggregation core reads are modelled; the many
passthrough exchange fields are opaque to aggregation.  `current_price`
and `trade_volume` arrive as strings and are parsed with `float(...)` /
`int(...)` at their use sites; the `Option` holds that parse outcome. -/

structure PriceMessage where
  stock_code : String
  trade_time : String
  current_price : Option ℚ
  trade_volume : Option ℤ
deriving DecidableEq

/-- The `price = float(tick.current_price); volume = int(tick.trade_volume)`
pair inside the per-tick `try` of the aggregators: the tick contributes only
if both parses succeed. -/
def parseTick (t : PriceMessage) : Option (ℚ × ℤ) :=
  match t.current_price, t.trade_volume with
  | some p, some v => some (p, v)
  | _, _ => none

/-- The ticks of a list that parse, in order (app/handler/price_handler.py
skips the rest with a logged warning). -/
def parsedTicks (ticks : List PriceMessage) : List (ℚ × ℤ) :=
  ticks.filterMap parseTick

/-! ### HourCandleAggregator (app/handler/price_handler.py) -/

structure HourCandleAggregator where
  open_ : Option ℚ
  high : Option ℚ
  low : Option ℚ
  close : Option ℚ
  volume : ℤ
  trade_count : ℕ
deriving DecidableEq

/-- `HourCandleAggregator.__init__`. -/
def HourCandleAggregator.init : HourCandleAggregator :=
  ⟨none, none, none, none, 0, 0⟩

/-- `HourCandleAggregator.add_tick`. -/
def HourCandleAggregator.add_tick (agg : HourCandleAggregator)
    (price : ℚ) (volume : ℤ) : HourCandleAggregator :=
  { open_ := match agg.open_ with
      | none => some price
      | some o => some o
    high := match agg.high with
      | none => some price
      | some hv => if price > hv then some price else some hv
    low := match agg.low with
      | none => some price
      | some lv => if price < lv then some price else some lv
    close := some price
    volume := agg.volume + volume
    trade_count := agg.trade_count + 1 }

/-- One iteration of the tick loop of `aggregate_ticks_to_candle` /
`aggregate_ticks_to_minute_candles`: parse price and volume, feed
`add_tick` on success, log and continue on failure. -/
def stepTick (agg : HourCandleAggregator) (t : PriceMessage) :
    HourCandleAggregator :=
  match parseTick t with
  | some pv => agg.add_tick pv.1 pv.2
  | none => agg

structure HourCandle where
  stock_code : String
  candle_date : ℤ
  hour : ℕ
  open_ : ℚ
  high : ℚ
  low : ℚ
  close : ℚ
  volume : ℤ
  trade_count : ℕ
deriving DecidableEq

/-- `HourCandleAggregator.to_dict`; the Python `x or 0` on the optional
OHLC floats is `Option.getD 0` (on the value `0.0` both give `0`). -/
def HourCandleAggregator.to_dict (agg : HourCandleAggregator)
    (stock_code : String) (candle_date : ℤ) (hour : ℕ) : HourCandle :=
  { stock_code := stock_code
    candle_date := candle_date
    hour := hour
    open_ := agg.open_.getD 0
    high := agg.high.getD 0
    low := agg.low.getD 0
    close := agg.close.getD 0
    volume := agg.volume
    trade_count := agg.trade_count }

/-- `aggregate_ticks_to_candle` (app/handler/price_handler.py lines 67-91). -/
def aggregate_ticks_to_candle (stock_code : String)
    (ticks : List PriceMessage) (candle_date : ℤ) (hour : ℕ) :
    Option HourCandle :=
  if ticks = [] then none
  else
    let agg := ticks.foldl stepTick HourCandleAggregator.init
    if agg.trade_count = 0 then none
    else some (agg.to_dict stock_code candle_date hour)

/-! ### Helper lemmas about the aggregator fold -/

theorem foldl_stepTick_eq (ticks : List PriceMessage) :
    ∀ a : HourCandleAggregator,
      ticks.foldl stepTick a =
        (parsedTicks ticks).foldl (fun ag pv => ag.add_tick pv.1 pv.2) a := by
  induction ticks with
  | nil => intro a; rfl
  | cons t ts ih =>
    intro a
    rw [List.foldl_cons]
    cases hp : parseTick t with
    | none =>
      have hs : stepTick a t = a := by simp [stepTick, hp]
      rw [hs, ih]
      simp [parsedTicks, List.filterMap_cons, hp]
    | some pv =>
      have hs : stepTick a t = a.add_tick pv.1 pv.2 := by simp [stepTick, hp]
      rw [hs, ih]
      simp [parsedTicks, List.filterMap_cons, hp]

theorem le_foldl_max (xs : List ℚ) : ∀ p : ℚ, p ≤ xs.foldl max p := by
  induction xs with
  | nil => intro p; simp
  | cons x xs ih =>
    intro p
    exact le_trans (le_max_left p x) (ih (max p x))

theorem foldl_max_of_mem (xs : List ℚ) (q : ℚ) (hq : q ∈ xs) :
    ∀ p : ℚ, q ≤ xs.foldl max p := by
  induction xs with
  | nil => cases hq
  | cons x xs ih =>
    intro p
    rcases List.mem_cons.1 hq with h | h
    · subst h
      exact le_trans (le_max_right p q) (le_foldl_max xs (max p q))
    · exact ih h (max p x)

theorem foldl_max_mem (xs : List ℚ) :
    ∀ p : ℚ, xs.foldl max p = p ∨ xs.foldl max p ∈ xs := by
  induction xs with
  | nil => intro p; left; rfl
  | cons x xs ih =>
    intro p
    rcases ih (max p x) with h | h
    · rw [List.foldl_cons, h]
      rcases max_choice p x with hc | hc
      · left; exact hc
      · right; rw [hc]; exact List.mem_cons_self x xs
    · right
      exact List.mem_cons_of_mem x h

theorem foldl_min_le (xs : List ℚ) : ∀ p : ℚ, xs.foldl min p ≤ p := by
  induction xs with
  | nil => intro p; simp
  | cons x xs ih =>
    intro p
    exact le_trans (ih (min p x)) (min_le_left p x)

theorem foldl_min_of_mem (xs : List ℚ) (q : ℚ) (hq : q ∈ xs) :
    ∀ p : ℚ, xs.foldl min p ≤ q := by
  induction xs with
  | nil => cases hq
  | cons x xs ih =>
    intro p
    rcases List.mem_cons.1 hq with h | h
    · subst h
      exact le_trans (foldl_min_le xs (min p q)) (min_le_right p q)
    · exact ih h (min p x)

theorem foldl_min_mem (xs : List ℚ) :
    ∀ p : ℚ, xs.foldl min p = p ∨ xs.foldl min p ∈ xs := by
  induction xs with
  | nil => intro p; left; rfl
  | cons x xs ih =>
    intro p
    rcases ih (min p x) with h | h
    · rw [List.foldl_cons, h]
      rcases min_choice p x with hc | hc
      · left; exact hc
      · right; rw [hc]; exact List.mem_cons_self x xs
    · right
      exact List.mem_cons_of_mem x h

theorem foldl_last_pair :
    ∀ (x : ℚ × ℤ) (rest : List (ℚ × ℤ)),
      (rest.map Prod.fst).foldl (fun _ q => q) x.1 =
        ((x :: rest).getLast (List.cons_ne_nil _ _)).1
  | _, [] => by simp
  | x, y :: ys => by
    rw [List.map_cons, List.foldl_cons,
      List.getLast_cons (List.cons_ne_nil _ _)]
    exact foldl_last_pair y ys

theorem if_gt_eq_max (a b : ℚ) :
    (if b > a then some b else some a) = some (max a b) := by
  rcases le_or_lt b a with h | h
  · simp [not_lt.2 h, max_eq_left h]
  · simp [h, max_eq_right h.le]

theorem if_lt_eq_min (a b : ℚ) :
    (if b < a then some b else some a) = some (min a b) := by
  rcases le_or_lt a b with h | h
  · simp [not_lt.2 h, min_eq_left h]
  · simp [h, min_eq_right h.le]

theorem foldl_add_tick_fields (l : List (ℚ × ℤ)) :
    ∀ (a : HourCandleAggregator) (o hp lp c : ℚ),
      a.open_ = some o → a.high = some hp → a.low = some lp →
      a.close = some c →
      (l.foldl (fun ag pv => ag.add_tick pv.1 pv.2) a).open_ = some o ∧
      (l.foldl (fun ag pv => ag.add_tick pv.1 pv.2) a).high =
        some ((l.map Prod.fst).foldl max hp) ∧
      (l.foldl (fun ag pv => ag.add_tick pv.1 pv.2) a).low =
        some ((l.map Prod.fst).foldl min lp) ∧
      (l.foldl (fun ag pv => ag.add_tick pv.1 pv.2) a).close =
        some ((l.map Prod.fst).foldl (fun _ q => q) c) ∧
      (l.foldl (fun ag pv => ag.add_tick pv.1 pv.2) a).volume =
        a.volume + (l.map Prod.snd).sum ∧
      (l.foldl (fun ag pv => ag.add_tick pv.1 pv.2) a).trade_count =
        a.trade_count + l.length := by
  induction l with
  | nil =>
    intro a o hp lp c h1 h2 h3 h4
    simp [h1, h2, h3, h4]
  | cons x xs ih =>
    intro a o hp lp c h1 h2 h3 h4
    have hadd : a.add_tick x.1 x.2 =
        ⟨some o, some (max hp x.1), some (min lp x.1), some x.1,
          a.volume + x.2, a.trade_count + 1⟩ := by
      simp only [HourCandleAggregator.add_tick, h1, h2, h3, h4,
        if_gt_eq_max, if_lt_eq_min]
    have := ih (a.add_tick x.1 x.2) o (max hp x.1) (min lp x.1) x.1
      (by rw [hadd]) (by rw [hadd]) (by rw [hadd]) (by rw [hadd])
    obtain ⟨e1, e2, e3, e4, e5, e6⟩ := this
    refine ⟨by simpa using e1, ?_, ?_, ?_, ?_, ?_⟩
    · rw [List.foldl_cons]
      rw [e2, List.map_cons, List.foldl_cons]
    · rw [List.foldl_cons]
      rw [e3, List.map_cons, List.foldl_cons]
    · rw [List.foldl_cons]
      rw [e4, List.map_cons, List.foldl_cons]
    · rw [List.foldl_cons, e5, hadd, List.map_cons, List.sum_cons]
      show a.volume + x.2 + (xs.map Prod.snd).sum =
        a.volume + (x.2 + (xs.map Prod.snd).sum)
      ring
    · rw [List.foldl_cons, e6, hadd, List.length_cons]
      show a.trade_count + 1 + xs.length = a.trade_count + (xs.length + 1)
      omega

/-- C4.  For every tick list in which at least one tick's price and volume
parse, the hour bar has open = first parsed price, close = last parsed
price, high/low = max/min parsed price, volume = sum of parsed volumes and
trade_count = number of parsed ticks; with zero parsed ticks no bar is
returned. -/
theorem C4_hour_bar_ohlcv (stock_code : String) (candle_date : ℤ)
    (hour : ℕ) (ticks : List PriceMessage) :
    (parsedTicks ticks = [] →
      aggregate_ticks_to_candle stock_code ticks candle_date hour = none) ∧
    (∀ (p : ℚ) (v : ℤ) (rest : List (ℚ × ℤ)),
      parsedTicks ticks = (p, v) :: rest →
      ∃ bar, aggregate_ticks_to_candle stock_code ticks candle_date hour =
          some bar ∧
        bar.open_ = p ∧
        bar.close = (((p, v) :: rest).getLast (List.cons_ne_nil _ _)).1 ∧
        bar.high ∈ ((p, v) :: rest).map Prod.fst ∧
        (∀ q ∈ ((p, v) :: rest).map Prod.fst, q ≤ bar.high) ∧
        bar.low ∈ ((p, v) :: rest).map Prod.fst ∧
        (∀ q ∈ ((p, v) :: rest).map Prod.fst, bar.low ≤ q) ∧
        bar.volume = (((p, v) :: rest).map Prod.snd).sum ∧
        bar.trade_count = ((p, v) :: rest).length) := by
  constructor
  · intro h0
    by_cases ht : ticks = []
    · simp [aggregate_ticks_to_candle, ht]
    · have hcount : (ticks.foldl stepTick HourCandleAggregator.init).trade_count = 0 := by
        rw [foldl_stepTick_eq, h0]
        rfl
      simp [aggregate_ticks_to_candle, ht, hcount]
  · intro p v rest hps
    have ht : ticks ≠ [] := by
      intro h
      rw [h] at hps
      simp [parsedTicks] at hps
    have hinit : (HourCandleAggregator.init.add_tick p v) =
        ⟨some p, some p, some p, some p, v, 1⟩ := by
      simp [HourCandleAggregator.add_tick, HourCandleAggregator.init]
    have hfold : ticks.foldl stepTick HourCandleAggregator.init =
        rest.foldl (fun ag pv => ag.add_tick pv.1 pv.2)
          (HourCandleAggregator.init.add_tick p v) := by
      rw [foldl_stepTick_eq, hps, List.foldl_cons]
    obtain ⟨e1, e2, e3, e4, e5, e6⟩ :=
      foldl_add_tick_fields rest (HourCandleAggregator.init.add_tick p v)
        p p p p (by rw [hinit]) (by rw [hinit]) (by rw [hinit])
        (by rw [hinit])
    have hcount : (ticks.foldl stepTick HourCandleAggregator.init).trade_count =
        rest.length + 1 := by
      rw [hfold, e6, hinit]
      show 1 + rest.length = rest.length + 1
      omega
    refine ⟨(ticks.foldl stepTick HourCandleAggregator.init).to_dict
      stock_code candle_date hour, ?_, ?_, ?_, ?_, ?_, ?_, ?_, ?_, ?_⟩
    · simp [aggregate_ticks_to_candle, ht, hcount]
    · simp [HourCandleAggregator.to_dict, hfold, e1]
    · rw [← foldl_last_pair (p, v) rest]
      simp [HourCandleAggregator.to_dict, hfold, e4]
    · simp only [HourCandleAggregator.to_dict, hfold, e2, Option.getD_some]
      rcases foldl_max_mem (rest.map Prod.fst) p with h | h
      · rw [h, List.map_cons]
        exact List.mem_cons_self _ _
      · rw [List.map_cons]
        exact List.mem_cons_of_mem _ h
    · intro q hq
      simp only [HourCandleAggregator.to_dict, hfold, e2, Option.getD_some]
      rw [List.map_cons] at hq
      rcases List.mem_cons.1 hq with h | h
      · subst h
        exact le_foldl_max _ _
      · exact foldl_max_of_mem _ q h p
    · simp only [HourCandleAggregator.to_dict, hfold, e3, Option.getD_some]
      rcases foldl_min_mem (rest.map Prod.fst) p with h | h
      · rw [h, List.map_cons]
        exact List.mem_cons_self _ _
      · rw [List.map_cons]
        exact List.mem_cons_of_mem _ h
    · intro q hq
      simp only [HourCandleAggregator.to_dict, hfold, e3, Option.getD_some]
      rw [List.map_cons] at hq
      rcases List.mem_cons.1 hq with h | h
      · subst h
        exact foldl_min_le _ _
      · exact foldl_min_of_mem _ q h p
    · simp only [HourCandleAggregator.to_dict, hfold, e5, List.map_cons,
        List.sum_cons]
      rw [hinit]
    · simp only [HourCandleAggregator.to_dict, hfold, e6, List.length_cons]
      rw [hinit]
      show 1 + rest.length = rest.length + 1
      omega

/-- Concrete ticks for the C4 witness: three parsing ticks (prices
100, 105, 95) and one with an unparsable price, as in the spec scenario. -/
def c4Ticks : List PriceMessage :=
  [⟨"005930", "100001", some 100, some 10⟩,
   ⟨"005930", "100002", none, some 5⟩,
   ⟨"005930", "100010", some 105, some 12⟩,
   ⟨"005930", "100030", some 95, some 8⟩]

theorem C4_witness :
    parsedTicks c4Ticks =
      ((100 : ℚ), (10 : ℤ)) :: [((105 : ℚ), (12 : ℤ)), ((95 : ℚ), (8 : ℤ))] ∧
    (∃ bar, aggregate_ticks_to_candle "005930" c4Ticks 0 10 = some bar ∧
      bar.open_ = 100 ∧
      bar.close = ((((100 : ℚ), (10 : ℤ)) ::
        [((105 : ℚ), (12 : ℤ)), ((95 : ℚ), (8 : ℤ))]).getLast
          (List.cons_ne_nil _ _)).1 ∧
      bar.high ∈ (((100 : ℚ), (10 : ℤ)) ::
        [((105 : ℚ), (12 : ℤ)), ((95 : ℚ), (8 : ℤ))]).map Prod.fst ∧
      (∀ q ∈ (((100 : ℚ), (10 : ℤ)) ::
        [((105 : ℚ), (12 : ℤ)), ((95 : ℚ), (8 : ℤ))]).map Prod.fst,
          q ≤ bar.high) ∧
      bar.low ∈ (((100 : ℚ), (10 : ℤ)) ::
        [((105 : ℚ), (12 : ℤ)), ((95 : ℚ), (8 : ℤ))]).map Prod.fst ∧
      (∀ q ∈ (((100 : ℚ), (10 : ℤ)) ::
        [((105 : ℚ), (12 : ℤ)), ((95 : ℚ), (8 : ℤ))]).map Prod.fst,
          bar.low ≤ q) ∧
      bar.volume = ((((100 : ℚ), (10 : ℤ)) ::
        [((105 : ℚ), (12 : ℤ)), ((95 : ℚ), (8 : ℤ))]).map Prod.snd).sum ∧
      bar.trade_count = (((100 : ℚ), (10 : ℤ)) ::
        [((105 : ℚ), (12 : ℤ)), ((95 : ℚ), (8 : ℤ))]).length) :=
  ⟨by decide,
    (C4_hour_bar_ohlcv "005930" 0 10 c4Ticks).2 100 10
      [(105, 12), (95, 8)] (by decide)⟩

/-! ### Minute-candle aggregation (app/handler/price_handler.py lines 94-138) -/

/-- `int(tick.trade_time[:4])` (line 107): the minute key `HHMM`.  Unlike
the price/volume parses this one is not inside a `try`; a `none` here
models the uncaught `ValueError`. -/
def minuteKeyOf (t : PriceMessage) : Option ℕ :=
  parseDigits (t.trade_time.toList.take 4)

/-- The per-tick grouping loop (lines 105-110): each tick is keyed by its
minute key; an unparsable `trade_time` raises out of the whole function. -/
def keyTicks : List PriceMessage → Except Unit (List (ℕ × PriceMessage))
  | [] => .ok []
  | t :: rest =>
    match minuteKeyOf t with
    | none => .error ()
    | some k =>
      match keyTicks rest with
      | .error e => .error e
      | .ok l => .ok ((k, t) :: l)

/-- `minute_groups[minute_key]`: the ticks with a given minute key, in
arrival order. -/
def minuteGroup (keyed : List (ℕ × PriceMessage)) (k : ℕ) :
    List PriceMessage :=
  (keyed.filter (fun kt => kt.1 = k)).map Prod.snd

/-- The key sequence of `sorted(minute_groups.items())`: the distinct
minute keys in ascending order (Python dict keys appear in first-insertion
order = `dedup`; `sorted` is an ascending stable sort). -/
def sortedMinuteKeys (keyed : List (ℕ × PriceMessage)) : List ℕ :=
  ((keyed.map Prod.fst).dedup).insertionSort (· ≤ ·)

structure MinuteCandle where
  stock_code : String
  candle_date : ℤ
  candle_hh : ℕ
  candle_mm : ℕ
  minute_interval : ℕ
  open_ : ℚ
  high : ℚ
  low : ℚ
  close : ℚ
  volume : ℤ
  trade_count : ℕ
deriving DecidableEq

/-- The candle dict appended for a populated group (lines 125-136). -/
def minuteCandleRecord (stock_code : String) (candle_date : ℤ)
    (minute_interval : ℕ) (k : ℕ) (agg : HourCandleAggregator) :
    MinuteCandle :=
  { stock_code := stock_code
    candle_date := candle_date
    candle_hh := k / 100
    candle_mm := k % 100
    minute_interval := minute_interval
    open_ := agg.open_.getD 0
    high := agg.high.getD 0
    low := agg.low.getD 0
    close := agg.close.getD 0
    volume := agg.volume
    trade_count := agg.trade_count }

/-- Body of the per-group loop (lines 113-136): aggregate the group with a
fresh aggregator; when `trade_count > 0`, `hh, mm = divmod(minute_key,
100)` and `candle_time = time(hh, mm, 0)` are computed — `datetime.time`
raises `ValueError` when `hh ≥ 24` or `mm ≥ 60`, and that error is not
caught anywhere in the function (`.error ()` here) — then the candle is
appended (`.ok (some ...)`).  An unpopulated group appends nothing and
never reaches the `time` constructor (`.ok none`). -/
def minuteCandleOfGroup (stock_code : String) (candle_date : ℤ)
    (minute_interval : ℕ) (k : ℕ) (group : List PriceMessage) :
    Except Unit (Option MinuteCandle) :=
  let agg := group.foldl stepTick HourCandleAggregator.init
  if agg.trade_count = 0 then .ok none
  else if 24 ≤ k / 100 ∨ 60 ≤ k % 100 then .error ()
  else .ok (some (minuteCandleRecord stock_code candle_date minute_interval
    k agg))

/-- The `for minute_key in sorted(minute_groups.items())` loop
(lines 112-136): candles are collected key by key in ascending order; an
exception from any group (the `time(...)` range error) propagates out of
the whole call, discarding every candle. -/
def collectMinuteCandles (stock_code : String) (candle_date : ℤ)
    (minute_interval : ℕ) (keyed : List (ℕ × PriceMessage)) :
    List ℕ → Except Unit (List MinuteCandle)
  | [] => .ok []
  | k :: ks =>
    match minuteCandleOfGroup stock_code candle_date minute_interval k
        (minuteGroup keyed k) with
    | .error e => .error e
    | .ok none =>
      collectMinuteCandles stock_code candle_date minute_interval keyed ks
    | .ok (some c) =>
      match collectMinuteCandles stock_code candle_date minute_interval
          keyed ks with
      | .error e => .error e
      | .ok cs => .ok (c :: cs)

/-- `aggregate_ticks_to_minute_candles` (lines 94-138). -/
def aggregate_ticks_to_minute_candles (stock_code : String)
    (ticks : List PriceMessage) (candle_date : ℤ) (minute_interval : ℕ) :
    Except Unit (List MinuteCandle) :=
  if ticks = [] then .ok []
  else
    match keyTicks ticks with
    | .error e => .error e
    | .ok keyed =>
      collectMinuteCandles stock_code candle_date minute_interval keyed
        (sortedMinuteKeys keyed)

/-- Modelled from the spec's words, for comparison with the code: the
bucket key the claim describes, `floor(minute / intervalMinutes) *
intervalMinutes` combined with the hour. -/
def claimBucketKey (minute_interval : ℕ) (k : ℕ) : ℕ :=
  (k / 100) * 100 + ((k % 100) / minute_interval) * minute_interval

/-- The tick's minute key parses and encodes a valid time of day, so the
minute aggregation can raise because of this tick neither at the key
parse (line 107) nor at the `time(hh, mm, 0)` constructor (line 128). -/
def validMinuteKey (t : PriceMessage) : Bool :=
  match minuteKeyOf t with
  | some k => decide (k / 100 < 24 ∧ k % 100 < 60)
  | none => false

/-! ### Helper lemmas for the minute aggregation -/

theorem trade_count_foldl (l : List PriceMessage) :
    ∀ a : HourCandleAggregator,
      (l.foldl stepTick a).trade_count = a.trade_count + (parsedTicks l).length := by
  induction l with
  | nil => intro a; simp [parsedTicks]
  | cons t ts ih =>
    intro a
    rw [List.foldl_cons]
    cases hp : parseTick t with
    | none =>
      have hs : stepTick a t = a := by simp [stepTick, hp]
      rw [hs, ih]
      simp [parsedTicks, List.filterMap_cons, hp]
    | some pv =>
      have hs : stepTick a t = a.add_tick pv.1 pv.2 := by simp [stepTick, hp]
      rw [hs, ih]
      simp only [parsedTicks, List.filterMap_cons, hp, List.length_cons,
        HourCandleAggregator.add_tick]
      omega

theorem trade_count_from_init (g : List PriceMessage) :
    (g.foldl stepTick HourCandleAggregator.init).trade_count =
      (parsedTicks g).length := by
  rw [trade_count_foldl]
  show 0 + (parsedTicks g).length = (parsedTicks g).length
  omega

theorem parsedTicks_ne_nil_iff (g : List PriceMessage) :
    parsedTicks g ≠ [] ↔ ∃ t ∈ g, parseTick t ≠ none := by
  unfold parsedTicks
  rw [Ne, List.filterMap_eq_nil_iff]
  push_neg
  rfl

theorem minuteCandleOfGroup_valid (stock_code : String) (candle_date : ℤ)
    (minute_interval : ℕ) (k : ℕ) (g : List PriceMessage)
    (h1 : k / 100 < 24) (h2 : k % 100 < 60) :
    minuteCandleOfGroup stock_code candle_date minute_interval k g =
      .ok (if parsedTicks g = [] then none
        else some (minuteCandleRecord stock_code candle_date minute_interval
          k (g.foldl stepTick HourCandleAggregator.init))) := by
  have hno : ¬ (24 ≤ k / 100 ∨ 60 ≤ k % 100) := by omega
  by_cases hg : parsedTicks g = []
  · simp [minuteCandleOfGroup, trade_count_from_init, hg]
  · have hlen : (parsedTicks g).length ≠ 0 := by
      simpa [List.length_eq_zero] using hg
    simp [minuteCandleOfGroup, trade_count_from_init, hg, hlen, hno]

theorem minuteCandleIf_map_key (stock_code : String) (candle_date : ℤ)
    (minute_interval : ℕ) (k : ℕ) (g : List PriceMessage) :
    ((if parsedTicks g = [] then none
      else some (minuteCandleRecord stock_code candle_date minute_interval
        k (g.foldl stepTick HourCandleAggregator.init))).map
      (fun b => b.candle_hh * 100 + b.candle_mm)) =
      if parsedTicks g = [] then none else some k := by
  by_cases hg : parsedTicks g = []
  · simp [hg]
  · have hk : k / 100 * 100 + k % 100 = k := by omega
    simp [hg, minuteCandleRecord, hk]

theorem filterMap_key_filter (keyed : List (ℕ × PriceMessage)) :
    ∀ l : List ℕ,
      (l.filterMap
        (fun k => if parsedTicks (minuteGroup keyed k) = [] then none
          else some k)) =
      l.filter (fun k => ¬ (parsedTicks (minuteGroup keyed k) = [])) := by
  intro l
  induction l with
  | nil => rfl
  | cons x xs ih =>
    by_cases h : parsedTicks (minuteGroup keyed x) = [] <;>
      simp [List.filterMap_cons, List.filter_cons, h, ih]

theorem sortedMinuteKeys_pairwise (keyed : List (ℕ × PriceMessage)) :
    List.Pairwise (· < ·) (sortedMinuteKeys keyed) := by
  have hs : List.Sorted (· ≤ ·) (sortedMinuteKeys keyed) :=
    List.sorted_insertionSort _ _
  have hn : (sortedMinuteKeys keyed).Nodup :=
    (List.perm_insertionSort _ _).symm.nodup (List.nodup_dedup _)
  exact (List.Pairwise.and hs hn).imp (fun h => lt_of_le_of_ne h.1 h.2)

theorem mem_sortedMinuteKeys (keyed : List (ℕ × PriceMessage)) (k : ℕ) :
    k ∈ sortedMinuteKeys keyed ↔ ∃ kt ∈ keyed, kt.1 = k := by
  simp [sortedMinuteKeys, List.mem_insertionSort, List.mem_dedup,
    List.mem_map]

theorem mem_minuteGroup (keyed : List (ℕ × PriceMessage)) (k : ℕ)
    (t : PriceMessage) :
    t ∈ minuteGroup keyed k ↔ (k, t) ∈ keyed := by
  simp only [minuteGroup, List.mem_map, List.mem_filter]
  constructor
  · rintro ⟨kt, ⟨hmem, hfst⟩, hsnd⟩
    have : kt = (k, t) := by
      cases kt
      simp_all
    rwa [this] at hmem
  · intro h
    exact ⟨(k, t), ⟨h, by simp⟩, rfl⟩

theorem keyTicks_mem :
    ∀ (ticks : List PriceMessage) (keyed : List (ℕ × PriceMessage)),
      keyTicks ticks = .ok keyed →
      ∀ kt ∈ keyed, kt.2 ∈ ticks ∧ minuteKeyOf kt.2 = some kt.1 := by
  intro ticks
  induction ticks with
  | nil =>
    intro keyed hk kt hkt
    have hkeyed : ([] : List (ℕ × PriceMessage)) = keyed := by
      simpa [keyTicks] using hk
    subst hkeyed
    cases hkt
  | cons t ts ih =>
    intro keyed hk kt hkt
    cases hmk : minuteKeyOf t with
    | none => simp [keyTicks, hmk] at hk
    | some k =>
      cases hkts : keyTicks ts with
      | error e => simp [keyTicks, hmk, hkts] at hk
      | ok l =>
        have hkeyed : (k, t) :: l = keyed := by
          simpa [keyTicks, hmk, hkts] using hk
        subst hkeyed
        rcases List.mem_cons.1 hkt with h | h
        · subst h
          exact ⟨List.mem_cons_self t ts, by simpa using hmk⟩
        · obtain ⟨h1, h2⟩ := ih l hkts kt h
          exact ⟨List.mem_cons_of_mem t h1, h2⟩

theorem validMinuteKey_spec (t : PriceMessage)
    (h : validMinuteKey t = true) :
    ∃ k, minuteKeyOf t = some k ∧ k / 100 < 24 ∧ k % 100 < 60 := by
  cases hmk : minuteKeyOf t with
  | none => simp [validMinuteKey, hmk] at h
  | some k =>
    refine ⟨k, rfl, ?_⟩
    simpa [validMinuteKey, hmk] using h

theorem collect_eq_ok (stock_code : String) (candle_date : ℤ)
    (minute_interval : ℕ) (keyed : List (ℕ × PriceMessage)) :
    ∀ ks : List ℕ,
      (∀ k ∈ ks, k / 100 < 24 ∧ k % 100 < 60) →
      collectMinuteCandles stock_code candle_date minute_interval keyed ks =
        .ok (ks.filterMap (fun k =>
          if parsedTicks (minuteGroup keyed k) = [] then none
          else some (minuteCandleRecord stock_code candle_date
            minute_interval k
            ((minuteGroup keyed k).foldl stepTick
              HourCandleAggregator.init)))) := by
  intro ks
  induction ks with
  | nil => intro _; rfl
  | cons k ks ih =>
    intro hv
    have hvk := hv k (List.mem_cons_self k ks)
    have hrest := ih (fun k2 h2 => hv k2 (List.mem_cons_of_mem k h2))
    have hval := minuteCandleOfGroup_valid stock_code candle_date
      minute_interval k (minuteGroup keyed k) hvk.1 hvk.2
    by_cases hg : parsedTicks (minuteGroup keyed k) = []
    · rw [if_pos hg] at hval
      simp [collectMinuteCandles, hval, hrest, List.filterMap_cons, hg]
    · rw [if_neg hg] at hval
      simp [collectMinuteCandles, hval, hrest, List.filterMap_cons, hg]

/-- Two ticks three resp. four minutes into the 10 o'clock hour: with
`minute_interval = 5` the claim's floor-bucketing puts them in one bucket,
the code keys them by raw `HHMM` and emits two bars. -/
def c6Ticks : List PriceMessage :=
  [⟨"005930", "100310", some 100, some 1⟩,
   ⟨"005930", "100420", some 101, some 2⟩]

/-- C6 counterexample: on `c6Ticks` with `intervalMinutes = 5` the code
produces two bars although exactly one bucket
`floor(minute / 5) * 5` combined with hour is populated — the claimed
bucketing does not hold for `intervalMinutes ≠ 1`. -/
theorem C6_counterexample :
    (aggregate_ticks_to_minute_candles "005930" c6Ticks 0 5).toOption.map
        List.length = some 2 ∧
    ((c6Ticks.filterMap minuteKeyOf).map (claimBucketKey 5)).dedup.length
        = 1 := by
  decide

/-- C6 (amended).  For every tick list and every `intervalMinutes`, the
minute aggregator buckets ticks by the raw hour-and-minute key `HHMM`
(`intervalMinutes` does not affect the grouping and is only recorded in
each bar).  When every minute key encodes a valid time of day (hour < 24,
minute < 60 — otherwise the `datetime.time` constructor raises and the
whole call aborts), it produces exactly one bar per `HHMM` bucket
populated by a price/volume-parsable tick, sorted strictly ascending by
bucket start.  This coincides with the claimed floor-bucketing exactly
when `intervalMinutes = 1`. -/
theorem C6_minute_bucketing (stock_code : String) (candle_date : ℤ)
    (minute_interval : ℕ) (ticks : List PriceMessage)
    (keyed : List (ℕ × PriceMessage)) (hk : keyTicks ticks = .ok keyed)
    (hvalid : ∀ kt ∈ keyed, kt.1 / 100 < 24 ∧ kt.1 % 100 < 60) :
    ∃ bars,
      aggregate_ticks_to_minute_candles stock_code ticks candle_date
        minute_interval = .ok bars ∧
      (∀ b ∈ bars, b.minute_interval = minute_interval) ∧
      List.Pairwise (· < ·)
        (bars.map (fun b => b.candle_hh * 100 + b.candle_mm)) ∧
      (∀ k : ℕ,
        (∃ b ∈ bars, b.candle_hh * 100 + b.candle_mm = k) ↔
          ∃ kt ∈ keyed, kt.1 = k ∧ parseTick kt.2 ≠ none) := by
  by_cases ht : ticks = []
  · subst ht
    have hkeyed : keyed = [] := by
      simpa [keyTicks] using hk
    subst hkeyed
    refine ⟨[], by simp [aggregate_ticks_to_minute_candles], by simp,
      by simp, ?_⟩
    intro k
    simp
  · have hvkeys : ∀ k ∈ sortedMinuteKeys keyed,
        k / 100 < 24 ∧ k % 100 < 60 := by
      intro k hkmem
      obtain ⟨kt, hktmem, hkt1⟩ := (mem_sortedMinuteKeys keyed k).1 hkmem
      have hv := hvalid kt hktmem
      rwa [hkt1] at hv
    have hcollect := collect_eq_ok stock_code candle_date minute_interval
      keyed (sortedMinuteKeys keyed) hvkeys
    have hmap :
        (((sortedMinuteKeys keyed).filterMap (fun k =>
          if parsedTicks (minuteGroup keyed k) = [] then none
          else some (minuteCandleRecord stock_code candle_date
            minute_interval k ((minuteGroup keyed k).foldl stepTick
              HourCandleAggregator.init)))).map
          (fun b => b.candle_hh * 100 + b.candle_mm)) =
        (sortedMinuteKeys keyed).filter
          (fun k => ¬ (parsedTicks (minuteGroup keyed k) = [])) := by
      rw [List.map_filterMap]
      have hfun :
          (fun k => ((if parsedTicks (minuteGroup keyed k) = [] then none
            else some (minuteCandleRecord stock_code candle_date
              minute_interval k ((minuteGroup keyed k).foldl stepTick
                HourCandleAggregator.init))).map
            (fun b => b.candle_hh * 100 + b.candle_mm))) =
          (fun k => if parsedTicks (minuteGroup keyed k) = [] then none
            else some k) :=
        funext (fun k => minuteCandleIf_map_key _ _ _ _ _)
      rw [hfun]
      exact filterMap_key_filter keyed _
    refine ⟨(sortedMinuteKeys keyed).filterMap (fun k =>
        if parsedTicks (minuteGroup keyed k) = [] then none
        else some (minuteCandleRecord stock_code candle_date
          minute_interval k ((minuteGroup keyed k).foldl stepTick
            HourCandleAggregator.init))), ?_, ?_, ?_, ?_⟩
    · unfold aggregate_ticks_to_minute_candles
      rw [if_neg ht, hk]
      exact hcollect
    · intro b hb
      obtain ⟨k, _, hkb⟩ := List.mem_filterMap.1 hb
      by_cases hg : parsedTicks (minuteGroup keyed k) = []
      · rw [if_pos hg] at hkb
        simp at hkb
      · rw [if_neg hg] at hkb
        have hb2 := Option.some.inj hkb
        rw [← hb2]
        rfl
    · rw [hmap]
      exact (sortedMinuteKeys_pairwise keyed).filter _
    · intro k
      constructor
      · rintro ⟨b, hb, hbk⟩
        have hk2 : k ∈ (((sortedMinuteKeys keyed).filterMap (fun k =>
            if parsedTicks (minuteGroup keyed k) = [] then none
            else some (minuteCandleRecord stock_code candle_date
              minute_interval k ((minuteGroup keyed k).foldl stepTick
                HourCandleAggregator.init)))).map
            (fun b => b.candle_hh * 100 + b.candle_mm)) :=
          List.mem_map.2 ⟨b, hb, hbk⟩
        rw [hmap] at hk2
        obtain ⟨_, hpop⟩ := List.mem_filter.1 hk2
        have hpop2 : parsedTicks (minuteGroup keyed k) ≠ [] := by
          simpa using hpop
        obtain ⟨t, htg, htp⟩ := (parsedTicks_ne_nil_iff _).1 hpop2
        exact ⟨(k, t), (mem_minuteGroup keyed k t).1 htg, rfl, htp⟩
      · rintro ⟨kt, hktmem, hkt1, hktp⟩
        have hkeys : k ∈ sortedMinuteKeys keyed :=
          (mem_sortedMinuteKeys keyed k).2 ⟨kt, hktmem, hkt1⟩
        have hpop : parsedTicks (minuteGroup keyed k) ≠ [] := by
          refine (parsedTicks_ne_nil_iff _).2 ⟨kt.2, ?_, hktp⟩
          refine (mem_minuteGroup keyed k kt.2).2 ?_
          have hkt : kt = (k, kt.2) := Prod.ext hkt1 rfl
          rwa [hkt] at hktmem
        have hmem2 : k ∈ ((sortedMinuteKeys keyed).filter
            (fun k => ¬ (parsedTicks (minuteGroup keyed k) = []))) :=
          List.mem_filter.2 ⟨hkeys, by simpa using hpop⟩
        rw [← hmap] at hmem2
        exact List.mem_map.1 hmem2

def c6wT1 : PriceMessage := ⟨"005930", "100420", some 101, some 2⟩

def c6wT2 : PriceMessage := ⟨"005930", "100310", some 100, some 1⟩

def c6wT3 : PriceMessage := ⟨"000660", "100350", none, some 9⟩

theorem C6_witness :
    keyTicks [c6wT1, c6wT2, c6wT3] =
      .ok [(1004, c6wT1), (1003, c6wT2), (1003, c6wT3)] ∧
    (∀ kt ∈ [(1004, c6wT1), (1003, c6wT2), (1003, c6wT3)],
      kt.1 / 100 < 24 ∧ kt.1 % 100 < 60) ∧
    (∃ bars,
      aggregate_ticks_to_minute_candles "005930" [c6wT1, c6wT2, c6wT3] 0 5 =
        .ok bars ∧
      (∀ b ∈ bars, b.minute_interval = 5) ∧
      List.Pairwise (· < ·)
        (bars.map (fun b => b.candle_hh * 100 + b.candle_mm)) ∧
      (∀ k : ℕ,
        (∃ b ∈ bars, b.candle_hh * 100 + b.candle_mm = k) ↔
          ∃ kt ∈ [(1004, c6wT1), (1003, c6wT2), (1003, c6wT3)],
            kt.1 = k ∧ parseTick kt.2 ≠ none)) :=
  ⟨by decide, by decide,
    C6_minute_bucketing "005930" 0 5 [c6wT1, c6wT2, c6wT3]
      [(1004, c6wT1), (1003, c6wT2), (1003, c6wT3)] (by decide)
      (by decide)⟩

/-! ### Saving an extracted hour bucket
(PriceHandler._save_hour_candles / _save_minute_candles,
app/handler/price_handler.py lines 175-268) -/

/-- The aggregation loop of `_save_hour_candles` (lines 199-203): one hour
candle per instrument whose ticks produce one.  The per-instrument hour
aggregation cannot raise, since all its parses sit inside the per-tick
`try` and it never constructs a `time`. -/
def save_hour_candles (hour_data : List (String × List PriceMessage))
    (candle_date : ℤ) (hour : ℕ) : List HourCandle :=
  hour_data.filterMap
    (fun ct => aggregate_ticks_to_candle ct.1 ct.2 candle_date hour)

/-- The aggregation loop of `_save_minute_candles` (lines 255-258),
called with the default `minute_interval = 1`: per-instrument minute
candles are concatenated; an exception from any instrument propagates to
the surrounding `try`, which logs and returns without upserting
anything. -/
def save_minute_candles :
    List (String × List PriceMessage) → ℤ → Except Unit (List MinuteCandle)
  | [], _ => .ok []
  | ct :: rest, candle_date =>
    match aggregate_ticks_to_minute_candles ct.1 ct.2 candle_date 1 with
    | .error e => .error e
    | .ok cs =>
      match save_minute_candles rest candle_date with
      | .error e => .error e
      | .ok css => .ok (cs ++ css)

theorem keyTicks_ok (ticks : List PriceMessage)
    (h : ∀ t ∈ ticks, minuteKeyOf t ≠ none) :
    ∃ keyed, keyTicks ticks = .ok keyed := by
  induction ticks with
  | nil => exact ⟨[], rfl⟩
  | cons t ts ih =>
    obtain ⟨k, hk⟩ :=
      Option.ne_none_iff_exists'.1 (h t (List.mem_cons_self t ts))
    obtain ⟨keyed, hkeyed⟩ :=
      ih (fun t2 ht2 => h t2 (List.mem_cons_of_mem t ht2))
    exact ⟨(k, t) :: keyed, by simp [keyTicks, hk, hkeyed]⟩

theorem aggregate_minute_ok (stock_code : String)
    (ticks : List PriceMessage) (candle_date : ℤ) (minute_interval : ℕ)
    (h : ∀ t ∈ ticks, validMinuteKey t = true) :
    ∃ l, aggregate_ticks_to_minute_candles stock_code ticks candle_date
      minute_interval = .ok l := by
  by_cases ht : ticks = []
  · exact ⟨[], by simp [aggregate_ticks_to_minute_candles, ht]⟩
  · obtain ⟨keyed, hk⟩ := keyTicks_ok ticks (fun t htmem => by
      obtain ⟨k, hkk, _⟩ := validMinuteKey_spec t (h t htmem)
      simp [hkk])
    have hvkeys : ∀ k ∈ sortedMinuteKeys keyed,
        k / 100 < 24 ∧ k % 100 < 60 := by
      intro k hkmem
      obtain ⟨kt, hktmem, hkt1⟩ := (mem_sortedMinuteKeys keyed k).1 hkmem
      obtain ⟨htmem, hkey⟩ := keyTicks_mem ticks keyed hk kt hktmem
      obtain ⟨k2, hk2, hv⟩ := validMinuteKey_spec kt.2 (h kt.2 htmem)
      rw [hkey] at hk2
      have hk21 : kt.1 = k2 := Option.some.inj hk2
      rw [← hk21, hkt1] at hv
      exact hv
    refine ⟨(sortedMinuteKeys keyed).filterMap (fun k =>
        if parsedTicks (minuteGroup keyed k) = [] then none
        else some (minuteCandleRecord stock_code candle_date
          minute_interval k ((minuteGroup keyed k).foldl stepTick
            HourCandleAggregator.init))), ?_⟩
    unfold aggregate_ticks_to_minute_candles
    rw [if_neg ht, hk]
    exact collect_eq_ok stock_code candle_date minute_interval keyed
      (sortedMinuteKeys keyed) hvkeys

theorem save_minute_candles_ok (candle_date : ℤ) :
    ∀ hour_data : List (String × List PriceMessage),
      (∀ ct ∈ hour_data, ∀ t ∈ ct.2, validMinuteKey t = true) →
      save_minute_candles hour_data candle_date =
        .ok (hour_data.flatMap
          (fun ct => (aggregate_ticks_to_minute_candles ct.1 ct.2
            candle_date 1).toOption.getD [])) := by
  intro hour_data
  induction hour_data with
  | nil => intro _; rfl
  | cons ct rest ih =>
    intro hkeys
    obtain ⟨cs, hcs⟩ := aggregate_minute_ok ct.1 ct.2 candle_date 1
      (hkeys ct (List.mem_cons_self ct rest))
    have hrest := ih (fun ct2 h2 => hkeys ct2 (List.mem_cons_of_mem ct h2))
    simp [save_minute_candles, hcs, hrest, Except.toOption]

/-- A tick whose `trade_time` is not parsable as a minute key, bundled
with a healthy instrument in the same extracted bucket. -/
def c8BadBucket : List (String × List PriceMessage) :=
  [("000001", [⟨"000001", "BAD000", some 100, some 1⟩]),
   ("005930", [⟨"005930", "100101", some 200, some 3⟩])]

/-- A tick whose minute key parses but encodes the out-of-range time
9:60 (`time(9, 60, 0)` raises `ValueError`), bundled with the same
healthy instrument. -/
def c8TimeBucket : List (String × List PriceMessage) :=
  [("000001", [⟨"000001", "096001", some 100, some 1⟩]),
   ("005930", [⟨"005930", "100101", some 200, some 3⟩])]

/-- C8 counterexample: the unparsable `trade_time` of instrument 000001 —
or its out-of-range trade time 09:60:01 — makes the whole bucket's
minute-candle save fail, although instrument 005930 alone would have
produced one bar: a failure while aggregating one instrument does prevent
the other instruments' minute bars from being produced and upserted. -/
theorem C8_counterexample :
    save_minute_candles c8BadBucket 0 = .error () ∧
    save_minute_candles c8TimeBucket 0 = .error () ∧
    (aggregate_ticks_to_minute_candles "005930"
      [⟨"005930", "100101", some 200, some 3⟩] 0 1).toOption.map
        List.length = some 1 := by
  decide

/-- C8 (amended).  Price/volume parse failures are skipped per tick and
never suppress another instrument's bars: whenever every tick's
`trade_time` yields a minute key encoding a valid time of day (hour < 24,
minute < 60), the minute-candle save succeeds with the concatenation of
every instrument's own bars, and each instrument's hour bar is always in
the saved hour-candle list.  (A tick whose `trade_time` fails minute-key
parsing, or encodes an out-of-range time so that `datetime.time` raises,
aborts the whole bucket's minute-candle save, as the counterexample
shows.) -/
theorem C8_bucket_isolation (hour_data : List (String × List PriceMessage))
    (candle_date : ℤ) (hour : ℕ)
    (hkeys : ∀ ct ∈ hour_data, ∀ t ∈ ct.2, validMinuteKey t = true) :
    save_minute_candles hour_data candle_date =
      .ok (hour_data.flatMap
        (fun ct => (aggregate_ticks_to_minute_candles ct.1 ct.2
          candle_date 1).toOption.getD [])) ∧
    (∀ ct ∈ hour_data, ∀ bar,
      aggregate_ticks_to_candle ct.1 ct.2 candle_date hour = some bar →
      bar ∈ save_hour_candles hour_data candle_date hour) := by
  refine ⟨save_minute_candles_ok candle_date hour_data hkeys, ?_⟩
  intro ct hct bar hbar
  exact List.mem_filterMap.2 ⟨ct, hct, hbar⟩

/-- A bucket where instrument 000001 has only a price-parse failure (the
tick is skipped) and instrument 005930 is healthy. -/
def c8Bucket : List (String × List PriceMessage) :=
  [("000001", [⟨"000001", "100101", none, some 1⟩]),
   ("005930", [⟨"005930", "100102", some 200, some 3⟩])]

theorem C8_witness :
    (∀ ct ∈ c8Bucket, ∀ t ∈ ct.2, validMinuteKey t = true) ∧
    (save_minute_candles c8Bucket 0 =
      .ok (c8Bucket.flatMap
        (fun ct => (aggregate_ticks_to_minute_candles ct.1 ct.2
          0 1).toOption.getD [])) ∧
    (∀ ct ∈ c8Bucket, ∀ bar,
      aggregate_ticks_to_candle ct.1 ct.2 0 10 = some bar →
      bar ∈ save_hour_candles c8Bucket 0 10)) :=
  ⟨by decide, C8_bucket_isolation c8Bucket 0 10 (by decide)⟩

/-! ### PriceCache (app/services/price_cache.py) -/

/-- `parse_trade_time_hour` (lines 23-30): `int(trade_time[:2])` when the
string is non-empty with length at least 2, `none` on a short string or a
failing parse. -/
def parse_trade_time_hour (trade_time : String) : Option ℕ :=
  if 2 ≤ trade_time.toList.length then parseDigits (trade_time.toList.take 2)
  else none

/-- The mutable state of `PriceCache`, within one trading day: the
per-instrument tick lists of the hour currently being accumulated
(`_cache`, an insertion-ordered association list) and `_current_hour`. -/
structure PriceCache where
  cache : List (String × List PriceMessage)
  current_hour : Option ℕ
deriving DecidableEq

/-- `self._cache[stock_code].append(price_msg)` with
`self._cache[stock_code] = []` on first sight (lines 108-111). -/
def cacheAppend :
    List (String × List PriceMessage) → PriceMessage →
    List (String × List PriceMessage)
  | [], msg => [(msg.stock_code, [msg])]
  | (c, ts) :: rest, msg =>
    if c = msg.stock_code then (c, ts ++ [msg]) :: rest
    else (c, ts) :: cacheAppend rest msg

/-- `PriceCache.set` (lines 70-113), within one day (the wall-clock
day-rollover reset `_check_and_reset_if_new_day` is the identity while the
date is unchanged, and the claim is scoped to one day).  Returns the new
state and the `(hour_changed, prev_hour, prev_hour_data)` triple. -/
def PriceCache.set (s : PriceCache) (msg : PriceMessage) :
    PriceCache × Bool × Option ℕ ×
      Option (List (String × List PriceMessage)) :=
  match parse_trade_time_hour msg.trade_time with
  | none => (s, false, none, none)
  | some h =>
    match s.current_hour with
    | some h0 =>
      if h ≠ h0 then
        (⟨cacheAppend [] msg, some h⟩, true, some h0,
          some (s.cache.filter (fun kv => ¬ kv.2.isEmpty)))
      else (⟨cacheAppend s.cache msg, some h⟩, false, none, none)
    | none => (⟨cacheAppend s.cache msg, some h⟩, false, none, none)

/-- C5.  When a tick whose parsed hour differs from the hour currently
held arrives, `set` returns `(true, previous hour, previous bucket)`, the
previous bucket is exactly the cached data (the filter drops only
instruments with no accumulated ticks), and afterwards the cache holds
exactly the one incoming tick. -/
theorem C5_hour_rollover (s : PriceCache) (msg : PriceMessage) (h h0 : ℕ)
    (hp : parse_trade_time_hour msg.trade_time = some h)
    (hc : s.current_hour = some h0) (hne : h ≠ h0) :
    s.set msg =
      (⟨[(msg.stock_code, [msg])], some h⟩, true, some h0,
        some (s.cache.filter (fun kv => ¬ kv.2.isEmpty))) ∧
    (∀ code ts, (code, ts) ∈ s.cache → ts ≠ [] →
      (code, ts) ∈ s.cache.filter (fun kv => ¬ kv.2.isEmpty)) ∧
    (∀ code ts, (code, ts) ∈ s.cache.filter (fun kv => ¬ kv.2.isEmpty) →
      (code, ts) ∈ s.cache) := by
  refine ⟨?_, ?_, ?_⟩
  · unfold PriceCache.set
    rw [hp, hc]
    simp [hne, cacheAppend]
  · intro code ts hmem hts
    refine List.mem_filter.2 ⟨hmem, ?_⟩
    simpa [List.isEmpty_iff] using hts
  · intro code ts hmem
    exact (List.mem_filter.1 hmem).1

def c5T1 : PriceMessage := ⟨"005930", "100001", some 100, some 1⟩

def c5T2 : PriceMessage := ⟨"005930", "100300", some 105, some 2⟩

def c5T3 : PriceMessage := ⟨"005930", "100500", some 95, some 3⟩

def c5T4 : PriceMessage := ⟨"005930", "110001", some 102, some 4⟩

/-- Cache state after recording the three hour-10 ticks. -/
def c5S3 : PriceCache :=
  ((((PriceCache.mk [] none).set c5T1).1.set c5T2).1.set c5T3).1

theorem C5_witness :
    parse_trade_time_hour c5T4.trade_time = some 11 ∧
    c5S3.current_hour = some 10 ∧
    (c5S3.set c5T4 =
      (⟨[(c5T4.stock_code, [c5T4])], some 11⟩, true, some 10,
        some (c5S3.cache.filter (fun kv => ¬ kv.2.isEmpty))) ∧
    (∀ code ts, (code, ts) ∈ c5S3.cache → ts ≠ [] →
      (code, ts) ∈ c5S3.cache.filter (fun kv => ¬ kv.2.isEmpty)) ∧
    (∀ code ts, (code, ts) ∈ c5S3.cache.filter (fun kv => ¬ kv.2.isEmpty) →
      (code, ts) ∈ c5S3.cache)) ∧
    c5S3.cache.filter (fun kv => ¬ kv.2.isEmpty) =
      [("005930", [c5T1, c5T2, c5T3])] :=
  ⟨by decide, by decide,
    C5_hour_rollover c5S3 c5T4 11 10 (by decide) (by decide) (by decide),
    by decide⟩

/-! ### Order reconciliation (app/handler/order_result_handler.py)

The Order row and its owned OrderExecution rows, and the pure state
transformation `_process_order_result` performs on them for one message.
The `executions` list models the OrderExecution rows of this order in the
database (the `count(...)` query); the strategy-stock and balance updates
are modelled separately. -/

inductive OrderStatus
  | ORDERED
  | PARTIALLY_EXECUTED
  | EXECUTED
deriving DecidableEq

/-- `OrderResultMessage` (app/schemas/order_signal.py): the fields
`_process_order_result` reads. -/
structure OrderResultMessage where
  order_type : String
  stock_code : String
  order_no : String
  order_quantity : ℤ
  order_price : ℚ
  order_dvsn : String
  account_no : String
  is_mock : Bool
  status : String
  executed_quantity : ℤ
  executed_price : ℚ
  total_executed_quantity : ℤ
  total_executed_price : ℚ
  remaining_quantity : ℤ
  is_fully_executed : Bool
deriving DecidableEq

structure OrderExecution where
  execution_sequence : ℕ
  executed_quantity : ℤ
  executed_price : ℚ
  total_executed_quantity_after : ℤ
  total_executed_price_after : ℚ
  remaining_quantity_after : ℤ
  is_fully_executed_after : Bool
deriving DecidableEq

structure Order where
  order_no : String
  order_type : String
  order_quantity : ℤ
  order_price : ℚ
  order_dvsn : String
  account_no : String
  is_mock : Bool
  status : OrderStatus
  total_executed_quantity : ℤ
  total_executed_price : ℚ
  remaining_quantity : ℤ
  is_fully_executed : Bool
  executions : List OrderExecution
deriving DecidableEq

/-- The status stored for a non-"ordered" message:
`PARTIALLY_EXECUTED if message.status == "partially_executed" else
EXECUTED` (lines 199 and 211-215). -/
def executionStatusOf (status : String) : OrderStatus :=
  if status = "partially_executed" then OrderStatus.PARTIALLY_EXECUTED
  else OrderStatus.EXECUTED

/-- The OrderExecution row appended for a non-"ordered" message
(lines 236-247). -/
def mkExecution (m : OrderResultMessage) (seq : ℕ) : OrderExecution :=
  { execution_sequence := seq
    executed_quantity := m.executed_quantity
    executed_price := m.executed_price
    total_executed_quantity_after := m.total_executed_quantity
    total_executed_price_after := m.total_executed_price
    remaining_quantity_after := m.remaining_quantity
    is_fully_executed_after := m.is_fully_executed }

/-- Lines 208-225: overwrite the cumulative fields only when the
message's cumulative executed quantity is at least the stored one
(`message.total_executed_quantity >= (existing.total_executed_quantity
or 0)`; on the integer-valued field `x or 0 = x`), else log and skip. -/
def applyCumulativeUpdate (o : Order) (m : OrderResultMessage) : Order :=
  if o.total_executed_quantity ≤ m.total_executed_quantity then
    { o with
        status := executionStatusOf m.status
        total_executed_quantity := m.total_executed_quantity
        total_executed_price := m.total_executed_price
        remaining_quantity := m.remaining_quantity
        is_fully_executed := m.is_fully_executed }
  else o

/-- Lines 185-207: a non-"ordered" message for an unknown order number
creates the Order row from the message before appending the execution. -/
def createOrderFromExecution (m : OrderResultMessage) : Order :=
  { order_no := m.order_no
    order_type := m.order_type
    order_quantity := m.order_quantity
    order_price := m.order_price
    order_dvsn := m.order_dvsn
    account_no := m.account_no
    is_mock := m.is_mock
    status := executionStatusOf m.status
    total_executed_quantity := m.total_executed_quantity
    total_executed_price := m.total_executed_price
    remaining_quantity := m.remaining_quantity
    is_fully_executed := m.is_fully_executed
    executions := [] }

/-- Lines 146-182: an "ordered" message creates the Order row, or resets
an existing row's cumulative fields. -/
def processOrderedMessage (existing : Option Order)
    (m : OrderResultMessage) : Order :=
  match existing with
  | some o =>
    { o with
        order_quantity := m.order_quantity
        order_price := m.order_price
        order_dvsn := m.order_dvsn
        status := OrderStatus.ORDERED
        total_executed_quantity := 0
        total_executed_price := 0
        remaining_quantity := m.order_quantity
        is_fully_executed := false }
  | none =>
    { order_no := m.order_no
      order_type := m.order_type
      order_quantity := m.order_quantity
      order_price := m.order_price
      order_dvsn := m.order_dvsn
      account_no := m.account_no
      is_mock := m.is_mock
      status := OrderStatus.ORDERED
      total_executed_quantity := 0
      total_executed_price := 0
      remaining_quantity := m.order_quantity
      is_fully_executed := false
      executions := [] }

/-- Lines 183-253: the execution branch.  Update (or create) the Order
row, then append one OrderExecution row whose sequence is
`count(existing rows) + 1` — the append happens whether or not the
staleness guard accepted the cumulative update. -/
def processExecutionMessage (existing : Option Order)
    (m : OrderResultMessage) : Order :=
  let o :=
    match existing with
    | none => createOrderFromExecution m
    | some o => applyCumulativeUpdate o m
  { o with
      executions := o.executions ++ [mkExecution m (o.executions.length + 1)] }

/-- `_process_order_result`, restricted to the Order/OrderExecution state
it rewrites for one message (lines 139-253). -/
def process_order_result (existing : Option Order)
    (m : OrderResultMessage) : Order :=
  if m.status = "ordered" then processOrderedMessage existing m
  else processExecutionMessage existing m

/-- C1.  For a non-"ordered" message against an existing Order row, the
cumulative fields (status, total executed quantity/price, remaining
quantity, fully-executed flag) take the message's values exactly when
the message's cumulative executed quantity is at least the stored one,
and are all left unchanged when it is lower. -/
theorem C1_staleness_guard (o : Order) (m : OrderResultMessage)
    (hs : m.status ≠ "ordered") :
    (o.total_executed_quantity ≤ m.total_executed_quantity →
      (process_order_result (some o) m).status = executionStatusOf m.status ∧
      (process_order_result (some o) m).total_executed_quantity =
        m.total_executed_quantity ∧
      (process_order_result (some o) m).total_executed_price =
        m.total_executed_price ∧
      (process_order_result (some o) m).remaining_quantity =
        m.remaining_quantity ∧
      (process_order_result (some o) m).is_fully_executed =
        m.is_fully_executed) ∧
    (m.total_executed_quantity < o.total_executed_quantity →
      (process_order_result (some o) m).status = o.status ∧
      (process_order_result (some o) m).total_executed_quantity =
        o.total_executed_quantity ∧
      (process_order_result (some o) m).total_executed_price =
        o.total_executed_price ∧
      (process_order_result (some o) m).remaining_quantity =
        o.remaining_quantity ∧
      (process_order_result (some o) m).is_fully_executed =
        o.is_fully_executed) := by
  constructor
  · intro hle
    simp [process_order_result, hs, processExecutionMessage,
      applyCumulativeUpdate, hle]
  · intro hlt
    simp [process_order_result, hs, processExecutionMessage,
      applyCumulativeUpdate, not_le.2 hlt]

def c1Order : Order :=
  { order_no := "0000123"
    order_type := "BUY"
    order_quantity := 10
    order_price := 75000
    order_dvsn := "00"
    account_no := "123456"
    is_mock := true
    status := OrderStatus.PARTIALLY_EXECUTED
    total_executed_quantity := 4
    total_executed_price := 75000
    remaining_quantity := 6
    is_fully_executed := false
    executions := [] }

def c1FreshMsg : OrderResultMessage :=
  { order_type := "BUY"
    stock_code := "005930"
    order_no := "0000123"
    order_quantity := 10
    order_price := 75000
    order_dvsn := "00"
    account_no := "123456"
    is_mock := true
    status := "partially_executed"
    executed_quantity := 3
    executed_price := 75000
    total_executed_quantity := 7
    total_executed_price := 75000
    remaining_quantity := 3
    is_fully_executed := false }

def c1StaleMsg : OrderResultMessage :=
  { c1FreshMsg with
      executed_quantity := 2
      total_executed_quantity := 2
      remaining_quantity := 8 }

theorem C1_witness :
    c1FreshMsg.status ≠ "ordered" ∧
    ((c1Order.total_executed_quantity ≤ c1FreshMsg.total_executed_quantity →
      (process_order_result (some c1Order) c1FreshMsg).status =
        executionStatusOf c1FreshMsg.status ∧
      (process_order_result (some c1Order) c1FreshMsg).total_executed_quantity =
        c1FreshMsg.total_executed_quantity ∧
      (process_order_result (some c1Order) c1FreshMsg).total_executed_price =
        c1FreshMsg.total_executed_price ∧
      (process_order_result (some c1Order) c1FreshMsg).remaining_quantity =
        c1FreshMsg.remaining_quantity ∧
      (process_order_result (some c1Order) c1FreshMsg).is_fully_executed =
        c1FreshMsg.is_fully_executed) ∧
    (c1FreshMsg.total_executed_quantity < c1Order.total_executed_quantity →
      (process_order_result (some c1Order) c1FreshMsg).status = c1Order.status ∧
      (process_order_result (some c1Order) c1FreshMsg).total_executed_quantity =
        c1Order.total_executed_quantity ∧
      (process_order_result (some c1Order) c1FreshMsg).total_executed_price =
        c1Order.total_executed_price ∧
      (process_order_result (some c1Order) c1FreshMsg).remaining_quantity =
        c1Order.remaining_quantity ∧
      (process_order_result (some c1Order) c1FreshMsg).is_fully_executed =
        c1Order.is_fully_executed)) ∧
    (c1StaleMsg.status ≠ "ordered" ∧
    (c1StaleMsg.total_executed_quantity < c1Order.total_executed_quantity →
      (process_order_result (some c1Order) c1StaleMsg).status = c1Order.status ∧
      (process_order_result (some c1Order) c1StaleMsg).total_executed_quantity =
        c1Order.total_executed_quantity ∧
      (process_order_result (some c1Order) c1StaleMsg).total_executed_price =
        c1Order.total_executed_price ∧
      (process_order_result (some c1Order) c1StaleMsg).remaining_quantity =
        c1Order.remaining_quantity ∧
      (process_order_result (some c1Order) c1StaleMsg).is_fully_executed =
        c1Order.is_fully_executed)) :=
  ⟨by decide, C1_staleness_guard c1Order c1FreshMsg (by decide),
    by decide, (C1_staleness_guard c1Order c1StaleMsg (by decide)).2⟩

/-- A message reporting status "executed" while its `is_fully_executed`
flag is false. -/
def c3Msg : OrderResultMessage :=
  { order_type := "BUY"
    stock_code := "005930"
    order_no := "0000124"
    order_quantity := 10
    order_price := 75000
    order_dvsn := "00"
    account_no := "123456"
    is_mock := true
    status := "executed"
    executed_quantity := 6
    executed_price := 75000
    total_executed_quantity := 10
    total_executed_price := 75000
    remaining_quantity := 0
    is_fully_executed := false }

def c3Order : Order :=
  { c1Order with order_no := "0000124" }

/-- C3 counterexample: the code derives the stored status from the
message's `status` string alone, so a message with `status = "executed"`
and `is_fully_executed = false` still moves the Order to EXECUTED —
refuting "EXECUTED only when the inbound message's is_fully_executed flag
is true". -/
theorem C3_counterexample :
    (process_order_result (some c3Order) c3Msg).status =
      OrderStatus.EXECUTED ∧
    c3Msg.is_fully_executed = false := by
  decide

/-- C3 (amended).  For a non-"ordered" message that creates the Order or
passes the staleness guard on an existing one, the stored status becomes
EXECUTED exactly when the message's `status` string is not
"partially_executed" (i.e. is "executed"); the `is_fully_executed` flag
is stored alongside but does not gate the transition. -/
theorem C3_executed_from_status (existing : Option Order)
    (m : OrderResultMessage) (hs : m.status ≠ "ordered")
    (hg : ∀ o, existing = some o →
      o.total_executed_quantity ≤ m.total_executed_quantity) :
    ((process_order_result existing m).status = OrderStatus.EXECUTED ↔
      m.status ≠ "partially_executed") := by
  cases existing with
  | none =>
    by_cases hp : m.status = "partially_executed" <;>
      simp [process_order_result, hs, processExecutionMessage,
        createOrderFromExecution, executionStatusOf, hp]
  | some o =>
    have hle := hg o rfl
    by_cases hp : m.status = "partially_executed" <;>
      simp [process_order_result, hs, processExecutionMessage,
        applyCumulativeUpdate, hle, executionStatusOf, hp]

theorem C3_witness :
    c1FreshMsg.status ≠ "ordered" ∧
    (∀ o : Order, some c1Order = some o →
      o.total_executed_quantity ≤ c1FreshMsg.total_executed_quantity) ∧
    ((process_order_result (some c1Order) c1FreshMsg).status =
        OrderStatus.EXECUTED ↔
      c1FreshMsg.status ≠ "partially_executed") :=
  ⟨by decide, by decide,
    C3_executed_from_status (some c1Order) c1FreshMsg (by decide)
      (by decide)⟩

/-- C10.  Every non-"ordered" message appends exactly one OrderExecution
row, with sequence number `count(existing execution rows) + 1` and the
message's post-execution snapshot — also when the staleness guard
rejected the cumulative update (the append is outside the guard). -/
theorem C10_execution_append (existing : Option Order)
    (m : OrderResultMessage) (hs : m.status ≠ "ordered") :
    (process_order_result existing m).executions =
      (match existing with
        | none => []
        | some o => o.executions) ++
      [mkExecution m
        ((match existing with
          | none => []
          | some o => o.executions).length + 1)] := by
  cases existing with
  | none =>
    simp [process_order_result, hs, processExecutionMessage,
      createOrderFromExecution]
  | some o =>
    by_cases hle : o.total_executed_quantity ≤ m.total_executed_quantity <;>
      simp [process_order_result, hs, processExecutionMessage,
        applyCumulativeUpdate, hle]

def c10Order : Order :=
  { c1Order with
      executions :=
        [mkExecution c1FreshMsg 1, mkExecution c1StaleMsg 2] }

theorem C10_witness :
    c1StaleMsg.status ≠ "ordered" ∧
    (process_order_result (some c10Order) c1StaleMsg).executions =
      (match some c10Order with
        | none => []
        | some o => o.executions) ++
      [mkExecution c1StaleMsg
        ((match some c10Order with
          | none => []
          | some o => o.executions).length + 1)] :=
  ⟨by decide, C10_execution_append (some c10Order) c1StaleMsg (by decide)⟩

/-! ### Retry loop of `handle_order_result`
(app/handler/order_result_handler.py lines 52-97) -/

/-- Outcome of one `_process_order_result` call: normal return, an
`IntegrityError` (unique-constraint violation), or any other exception. -/
inductive AttemptOutcome
  | ok
  | integrityError
  | otherError
deriving DecidableEq

/-- Result of the `for attempt in range(max_retries)` loop: a return after
some number of calls, a re-raise after some number of calls, or the
(unreachable for `max_retries ≥ 1`) fall-through when the loop body never
runs. -/
inductive RetryResult
  | success (calls : ℕ)
  | raised (calls : ℕ) (e : AttemptOutcome)
  | fellThrough
deriving DecidableEq

/-- The retry loop, driven by the list of outcomes of the successive
`_process_order_result` calls (one entry per loop iteration, so the list
length is `max_retries`).  Both `except` arms sleep
`0.1 * (attempt + 1)` and continue when attempts remain, and re-raise on
the last attempt; the sleep itself is not modelled. -/
def handle_order_result_loop : List AttemptOutcome → ℕ → RetryResult
  | [], _ => RetryResult.fellThrough
  | [r], n =>
    match r with
    | AttemptOutcome.ok => RetryResult.success (n + 1)
    | e => RetryResult.raised (n + 1) e
  | r :: rest, n =>
    match r with
    | AttemptOutcome.ok => RetryResult.success (n + 1)
    | _ => handle_order_result_loop rest (n + 1)

/-- `handle_order_result` with its per-attempt outcomes made explicit. -/
def handle_order_result (attempts : List AttemptOutcome) : RetryResult :=
  handle_order_result_loop attempts 0

/-- C7 counterexample: a first call that raises a non-IntegrityError
exception is retried — the second call succeeds and the message is
processed rather than aborted, refuting "any other exception ... aborts
processing of that single message without retry". -/
theorem C7_counterexample :
    handle_order_result
        [AttemptOutcome.otherError, AttemptOutcome.ok] =
      RetryResult.success 2 ∧
    handle_order_result
        [AttemptOutcome.otherError, AttemptOutcome.ok] ≠
      RetryResult.raised 1 AttemptOutcome.otherError := by
  decide

/-- C7 (amended).  The bounded retry loop with incremental backoff applies
to every exception raised while processing the message — IntegrityError
and any other exception alike: a failing attempt with attempts remaining
is retried, and a failing final attempt re-raises its exception. -/
theorem C7_retry_any_exception (e : AttemptOutcome)
    (he : e ≠ AttemptOutcome.ok) (rest : List AttemptOutcome) (n : ℕ) :
    (rest ≠ [] →
      handle_order_result_loop (e :: rest) n =
        handle_order_result_loop rest (n + 1)) ∧
    handle_order_result_loop [e] n = RetryResult.raised (n + 1) e := by
  constructor
  · intro hrest
    cases rest with
    | nil => exact absurd rfl hrest
    | cons r rs =>
      cases e with
      | ok => exact absurd rfl he
      | integrityError => rfl
      | otherError => rfl
  · cases e with
    | ok => exact absurd rfl he
    | integrityError => rfl
    | otherError => rfl

theorem C7_witness :
    AttemptOutcome.otherError ≠ AttemptOutcome.ok ∧
    ([AttemptOutcome.ok] ≠ ([] : List AttemptOutcome)) ∧
    (([AttemptOutcome.ok] ≠ ([] : List AttemptOutcome) →
      handle_order_result_loop
          [AttemptOutcome.otherError, AttemptOutcome.ok] 0 =
        handle_order_result_loop [AttemptOutcome.ok] 1) ∧
    handle_order_result_loop [AttemptOutcome.otherError] 0 =
      RetryResult.raised 1 AttemptOutcome.otherError) :=
  ⟨by decide, by decide,
    C7_retry_any_exception AttemptOutcome.otherError (by decide)
      [AttemptOutcome.ok] 0⟩

/-! ### Account balance update on execution
(`_update_account_balance_on_execution`, lines 386-446) -/

inductive AccountType
  | MOCK
  | PAPER
  | REAL
deriving DecidableEq

structure Account where
  account_type : AccountType
  account_balance : Option ℚ
deriving DecidableEq

/-- The `AccountType.MOCK` branch (lines 398-411); the PAPER/REAL branch
overwrites the balance from the external KIS query and is outside this
claim.  `balance = float(account.account_balance) if ... is not None else
0.0` is `Option.getD 0`;
`delta_amount = float(executed_price * executed_quantity)`. -/
def update_mock_balance (account : Account) (order_type : String)
    (executed_quantity : ℤ) (executed_price : ℚ) : Account :=
  let balance : ℚ := account.account_balance.getD 0
  let delta_amount : ℚ := executed_price * executed_quantity
  if order_type = "BUY" then
    { account with account_balance := some (balance - delta_amount) }
  else
    { account with account_balance := some (balance + delta_amount) }

/-- C9.  For a simulated (MOCK) account the stored balance changes by
exactly `executed_price * executed_quantity`: subtracted on BUY, added on
SELL. -/
theorem C9_mock_balance_delta (account : Account) (b : ℚ)
    (hb : account.account_balance = some b) (q : ℤ) (p : ℚ) :
    (update_mock_balance account "BUY" q p).account_balance =
      some (b - p * q) ∧
    (update_mock_balance account "SELL" q p).account_balance =
      some (b + p * q) := by
  constructor
  · simp [update_mock_balance, hb]
  · simp [update_mock_balance, hb]

def c9Account : Account :=
  { account_type := AccountType.MOCK, account_balance := some 1000000 }

theorem C9_witness :
    c9Account.account_balance = some 1000000 ∧
    ((update_mock_balance c9Account "BUY" 10 75000).account_balance =
      some (1000000 - 75000 * ((10 : ℤ) : ℚ)) ∧
    (update_mock_balance c9Account "SELL" 10 75000).account_balance =
      some (1000000 + 75000 * ((10 : ℤ) : ℚ))) :=
  ⟨by decide, C9_mock_balance_delta c9Account 1000000 (by decide) 10 75000⟩

/-! ### Daily-plan merge (app/handler/daily_strategy_handler.py)

The merge of one incoming strategy plan into the existing
DailyStrategyStock rows of the matching DailyStrategy (lines 92-178).
The resulting row set is modelled as a list: the surviving existing rows
(in place, updated) followed by the newly inserted rows.  Applying the
message rows sequentially collapses to the last message row of each
code, since both update branches overwrite exactly the fields they take
from the message row and neither touches the trade fields that select
the branch. -/

/-- The incoming per-stock plan data (app/schemas/daily_strategy.py,
`DailyStrategyStock` message model): `stock_open` is an `int` field,
optional targets may be absent. -/
structure PlanStock where
  stock_code : String
  stock_name : String
  exchange : String
  stock_open : ℤ
  target_price : Option ℚ
  target_quantity : Option ℤ
  target_sell_price : Option ℚ
  stop_loss_price : Option ℚ
deriving DecidableEq

/-- The persisted `DailyStrategyStock` row: target fields from the plan,
trade fields (`buy_price`, `buy_quantity`, `sell_price`,
`sell_quantity`, `profit_rate`) filled in by order reconciliation,
nullable until then. -/
structure StrategyStock where
  stock_code : String
  stock_name : String
  exchange : String
  stock_open : ℚ
  target_price : Option ℚ
  target_quantity : Option ℤ
  target_sell_price : Option ℚ
  stop_loss_price : Option ℚ
  buy_price : Option ℚ
  buy_quantity : Option ℚ
  sell_price : Option ℚ
  sell_quantity : Option ℚ
  profit_rate : Option ℚ
deriving DecidableEq

/-- `_has_trading_data` (lines 31-39). -/
def has_trading_data (s : StrategyStock) : Bool :=
  s.buy_price.isSome || s.buy_quantity.isSome ||
    s.sell_price.isSome || s.sell_quantity.isSome

/-- Lines 133-137: target-only update for a row with trade data. -/
def updateTargets (s : StrategyStock) (p : PlanStock) : StrategyStock :=
  { s with
      target_price := p.target_price
      target_quantity := p.target_quantity
      target_sell_price := p.target_sell_price
      stop_loss_price := p.stop_loss_price }

/-- Lines 144-153: full overwrite for a row without trade data. -/
def overwriteFromPlan (s : StrategyStock) (p : PlanStock) : StrategyStock :=
  { s with
      stock_name := p.stock_name
      exchange := p.exchange
      stock_open := (p.stock_open : ℚ)
      target_price := p.target_price
      target_quantity := p.target_quantity
      target_sell_price := p.target_sell_price
      stop_loss_price := p.stop_loss_price }

/-- Lines 154-168: a row inserted for a new instrument (trade fields are
NULL on insert). -/
def newStockFromPlan (p : PlanStock) : StrategyStock :=
  { stock_code := p.stock_code
    stock_name := p.stock_name
    exchange := p.exchange
    stock_open := (p.stock_open : ℚ)
    target_price := p.target_price
    target_quantity := p.target_quantity
    target_sell_price := p.target_sell_price
    stop_loss_price := p.stop_loss_price
    buy_price := none
    buy_quantity := none
    sell_price := none
    sell_quantity := none
    profit_rate := none }

/-- The message row that ends up applied to an existing row of a given
code (the last one, as the loop applies them in order). -/
def lastPlanFor (incoming : List PlanStock) (code : String) :
    Option PlanStock :=
  (incoming.filter (fun p => p.stock_code = code)).getLast?

/-- Fate of one existing row under the merge: updated (target-only or
full, lines 128-153), kept (absent from the message but traded,
lines 107-118), or deleted (absent and untraded, lines 108-125). -/
def merge_stock_row (incoming : List PlanStock) (s : StrategyStock) :
    Option StrategyStock :=
  match lastPlanFor incoming s.stock_code with
  | some p =>
    some (if has_trading_data s then updateTargets s p
      else overwriteFromPlan s p)
  | none => if has_trading_data s then some s else none

/-- `handle_daily_strategy` merge branch (lines 92-178) for one strategy:
the resulting DailyStrategyStock row set. -/
def handle_daily_strategy_merge (existing : List StrategyStock)
    (incoming : List PlanStock) : List StrategyStock :=
  existing.filterMap (merge_stock_row incoming) ++
    (incoming.filter
      (fun p => ¬ existing.any
        (fun s => s.stock_code = p.stock_code))).map newStockFromPlan

/-- C2.  A traded row (non-null buy or sell quantity) present in the
incoming plan gets only its target fields replaced — its buy/sell and
profit fields survive — and is in the merged row set; a traded row absent
from the incoming plan survives entirely unchanged; and a row the merge
drops has null buy and sell quantity (only untraded absent rows are
deleted). -/
theorem C2_plan_merge_preserves_trades (existing : List StrategyStock)
    (incoming : List PlanStock) :
    (∀ s ∈ existing, s.buy_quantity ≠ none ∨ s.sell_quantity ≠ none →
      ((∀ p, lastPlanFor incoming s.stock_code = some p →
        merge_stock_row incoming s = some (updateTargets s p) ∧
        (updateTargets s p).buy_price = s.buy_price ∧
        (updateTargets s p).buy_quantity = s.buy_quantity ∧
        (updateTargets s p).sell_price = s.sell_price ∧
        (updateTargets s p).sell_quantity = s.sell_quantity ∧
        (updateTargets s p).profit_rate = s.profit_rate ∧
        (updateTargets s p).target_price = p.target_price ∧
        (updateTargets s p).target_quantity = p.target_quantity ∧
        (updateTargets s p).target_sell_price = p.target_sell_price ∧
        (updateTargets s p).stop_loss_price = p.stop_loss_price ∧
        updateTargets s p ∈ handle_daily_strategy_merge existing incoming) ∧
      (lastPlanFor incoming s.stock_code = none →
        merge_stock_row incoming s = some s ∧
        s ∈ handle_daily_strategy_merge existing incoming))) ∧
    (∀ s ∈ existing, merge_stock_row incoming s = none →
      s.buy_quantity = none ∧ s.sell_quantity = none) := by
  constructor
  · intro s hs htr
    have htd : has_trading_data s = true := by
      rcases htr with h | h
      · cases hb : s.buy_quantity with
        | none => exact absurd hb h
        | some v => simp [has_trading_data, hb]
      · cases hb : s.sell_quantity with
        | none => exact absurd hb h
        | some v => simp [has_trading_data, hb]
    constructor
    · intro p hp
      have hm : merge_stock_row incoming s = some (updateTargets s p) := by
        simp [merge_stock_row, hp, htd]
      exact ⟨hm, rfl, rfl, rfl, rfl, rfl, rfl, rfl, rfl, rfl,
        List.mem_append.2 (Or.inl (List.mem_filterMap.2 ⟨s, hs, hm⟩))⟩
    · intro hp
      have hm : merge_stock_row incoming s = some s := by
        simp [merge_stock_row, hp, htd]
      exact ⟨hm,
        List.mem_append.2 (Or.inl (List.mem_filterMap.2 ⟨s, hs, hm⟩))⟩
  · intro s hs hnone
    cases hlp : lastPlanFor incoming s.stock_code with
    | some p => simp [merge_stock_row, hlp] at hnone
    | none =>
      by_cases htd : has_trading_data s = true
      · simp [merge_stock_row, hlp, htd] at hnone
      · cases hb : s.buy_quantity with
        | some v => exact absurd (by simp [has_trading_data, hb]) htd
        | none =>
          cases hq : s.sell_quantity with
          | some v => exact absurd (by simp [has_trading_data, hq]) htd
          | none => exact ⟨rfl, rfl⟩

/-- Incoming plan row for 005930 with changed targets. -/
def c2P1 : PlanStock :=
  { stock_code := "005930"
    stock_name := "SEC"
    exchange := "KOSPI"
    stock_open := 70000
    target_price := some 71000
    target_quantity := some 12
    target_sell_price := some 74000
    stop_loss_price := some 68000 }

/-- Existing traded row for 005930 (`buy_quantity = 10`), present in the
incoming plan. -/
def c2S1 : StrategyStock :=
  { stock_code := "005930"
    stock_name := "SEC"
    exchange := "KOSPI"
    stock_open := 70000
    target_price := some 70500
    target_quantity := some 10
    target_sell_price := some 73000
    stop_loss_price := some 67000
    buy_price := some 70200
    buy_quantity := some 10
    sell_price := none
    sell_quantity := none
    profit_rate := none }

/-- Existing traded row for 000660, absent from the incoming plan. -/
def c2S2 : StrategyStock :=
  { c2S1 with
      stock_code := "000660"
      buy_price := some 180000
      buy_quantity := some 5 }

/-- Existing untraded row for 035420, absent from the incoming plan. -/
def c2S3 : StrategyStock :=
  { c2S1 with
      stock_code := "035420"
      buy_price := none
      buy_quantity := none }

def c2Existing : List StrategyStock := [c2S1, c2S2, c2S3]

def c2Incoming : List PlanStock := [c2P1]

theorem C2_witness :
    c2S1 ∈ c2Existing ∧
    (c2S1.buy_quantity ≠ none ∨ c2S1.sell_quantity ≠ none) ∧
    lastPlanFor c2Incoming c2S1.stock_code = some c2P1 ∧
    (merge_stock_row c2Incoming c2S1 = some (updateTargets c2S1 c2P1) ∧
      (updateTargets c2S1 c2P1).buy_price = c2S1.buy_price ∧
      (updateTargets c2S1 c2P1).buy_quantity = c2S1.buy_quantity ∧
      (updateTargets c2S1 c2P1).sell_price = c2S1.sell_price ∧
      (updateTargets c2S1 c2P1).sell_quantity = c2S1.sell_quantity ∧
      (updateTargets c2S1 c2P1).profit_rate = c2S1.profit_rate ∧
      (updateTargets c2S1 c2P1).target_price = c2P1.target_price ∧
      (updateTargets c2S1 c2P1).target_quantity = c2P1.target_quantity ∧
      (updateTargets c2S1 c2P1).target_sell_price = c2P1.target_sell_price ∧
      (updateTargets c2S1 c2P1).stop_loss_price = c2P1.stop_loss_price ∧
      updateTargets c2S1 c2P1 ∈
        handle_daily_strategy_merge c2Existing c2Incoming) ∧
    c2S2 ∈ c2Existing ∧
    lastPlanFor c2Incoming c2S2.stock_code = none ∧
    (merge_stock_row c2Incoming c2S2 = some c2S2 ∧
      c2S2 ∈ handle_daily_strategy_merge c2Existing c2Incoming) ∧
    merge_stock_row c2Incoming c2S3 = none ∧
    (c2S3.buy_quantity = none ∧ c2S3.sell_quantity = none) :=
  ⟨by decide, by decide, by decide,
    ((C2_plan_merge_preserves_trades c2Existing c2Incoming).1 c2S1
      (by decide) (by decide)).1 c2P1 (by decide),
    by decide, by decide,
    ((C2_plan_merge_preserves_trades c2Existing c2Incoming).1 c2S2
      (by decide) (by decide)).2 (by decide),
    by decide,
    (C2_plan_merge_preserves_trades c2Existing c2Incoming).2 c2S3
      (by decide) (by decide)⟩

end StockPredictApi
